import Mathlib

/-!
Verification of the localization resolver of the jscontact crate.

The definitions below are a shallow embedding of the Rust sources
(src/card.rs for the resolver, src/lib.rs and src/resource.rs for the
data model).  Rust strings are modelled as lists of characters, Rust
HashMap values as association lists (insertion order; Rust iteration
order is unspecified, which matters only for documents with several
entries and is noted where relevant), serde_json::Value as the Json
inductive, and fallible functions as Except values.
-/

namespace JSContact

/-- Strings of the Rust program are modelled as lists of characters. -/
abbrev Str : Type := List Char

/-- Conversion from a Lean string literal to the character-list model. -/
def chars (s : String) : Str := s.data

/-- Model of the source helper remove_first (src/card.rs): drops the first
character of a string, returning the empty string on empty input. -/
def removeFirst (s : Str) : Str := s.drop 1

/-- Fuel-driven worker for replaceAll.  The fuel starts at the length of the
string, which is enough because each step consumes at least one character. -/
def replaceAllFuel (pat rep : Str) : Nat → Str → Str
  | 0, s => s
  | _ + 1, [] => []
  | fuel + 1, a :: rest =>
    if pat ≠ [] ∧ pat.isPrefixOf (a :: rest) then
      rep ++ replaceAllFuel pat rep fuel ((a :: rest).drop pat.length)
    else
      a :: replaceAllFuel pat rep fuel rest

/-- Model of Rust str::replace: replaces every non-overlapping occurrence of
pat in s by rep, scanning left to right.  The patterns used by the program
are never empty, so the empty-pattern case (identity here) is not exercised. -/
def replaceAll (s pat rep : Str) : Str := replaceAllFuel pat rep s.length s

/-- Model of Rust str::split for a single-character separator, as used by
key.split with the slash separator in src/card.rs.  Always returns a
non-empty list, like the Rust iterator. -/
def splitOn (sep : Char) : Str → List Str
  | [] => [[]]
  | a :: rest =>
    match splitOn sep rest with
    | [] => [[]]
    | s :: ss => if a = sep then [] :: s :: ss else (a :: s) :: ss

/-- Model of Rust str::parse::<usize> on one digit, as a value. -/
def digitVal? (c : Char) : Option Nat :=
  if c.isDigit then some (c.toNat - 48) else none

/-- Accumulating worker for parseNat?. -/
def parseDigitsAux : Str → Nat → Option Nat
  | [], acc => some acc
  | c :: rest, acc =>
    match digitVal? c with
    | some d => parseDigitsAux rest (acc * 10 + d)
    | none => none

/-- Model of Rust str::parse::<usize>: an optional leading plus sign followed
by at least one ASCII digit.  Overflow of usize is not modelled; the indices
appearing in override paths are small. -/
def parseNat? (s : Str) : Option Nat :=
  match s with
  | [] => none
  | '+' :: rest => if rest = [] then none else parseDigitsAux rest 0
  | _ => parseDigitsAux s 0

/-- Lookup in an association list, modelling HashMap::get on maps whose
entries are kept in insertion order. -/
def lookupA {α : Type} (k : Str) : List (Str × α) → Option α
  | [] => none
  | (k', v) :: rest => if k' = k then some v else lookupA k rest

/-- Insertion into an association list, modelling HashMap::insert (replace in
place when the key is present, append otherwise).  Mutation of an entry
obtained through HashMap::get_mut is modelled by insertA with the same key. -/
def insertA {α : Type} (k : Str) (v : α) : List (Str × α) → List (Str × α)
  | [] => [(k, v)]
  | (k', v') :: rest => if k' = k then (k, v) :: rest else (k', v') :: insertA k v rest

/-- Model of serde_json::Value.  Numbers are modelled as integers; the
program never patches floating-point data. -/
inductive Json : Type
  | null : Json
  | bool : Bool → Json
  | num : Int → Json
  | str : Str → Json
  | arr : List Json → Json
  | obj : List (Str × Json) → Json

/-- Escapes the quote and backslash characters of a rendered string. -/
def renderStr : Str → Str
  | [] => []
  | c :: rest =>
    (if c = '"' then ['\\', '"'] else if c = '\\' then ['\\', '\\'] else [c]) ++ renderStr rest

mutual

/-- Compact rendering of a Json value, modelling the Display instance of
serde_json::Value as interpolated into two error messages of
localize_addresses.  Exotic control-character escapes are not reproduced;
no theorem below depends on these two message texts. -/
def renderJson : Json → Str
  | .null => chars "null"
  | .bool true => chars "true"
  | .bool false => chars "false"
  | .num n => (toString n).data
  | .str s => '"' :: renderStr s ++ ['"']
  | .arr xs => '[' :: renderJsonList xs ++ [']']
  | .obj fields => (chars "\x7b") ++ renderJsonFields fields ++ (chars "\x7d")

/-- Renders the elements of a Json array, separated by commas. -/
def renderJsonList : List Json → Str
  | [] => []
  | [x] => renderJson x
  | x :: y :: rest => renderJson x ++ ',' :: renderJsonList (y :: rest)

/-- Renders the fields of a Json object, separated by commas. -/
def renderJsonFields : List (Str × Json) → Str
  | [] => []
  | [(k, v)] => '"' :: renderStr k ++ '"' :: ':' :: renderJson v
  | (k, v) :: f :: rest =>
    '"' :: renderStr k ++ '"' :: ':' :: renderJson v ++ ',' :: renderJsonFields (f :: rest)

end

/-- Applies a fallible function to each element of a list, failing as a whole
when any element fails, like serde deserialization of a sequence. -/
def mapOption {α β : Type} (f : α → Option β) : List α → Option (List β)
  | [] => some []
  | a :: rest =>
    match f a with
    | none => none
    | some b => (mapOption f rest).map (fun bs => b :: bs)

/-- Looks up an optional serde field: an absent or null field yields none,
a present field must parse. -/
def getFieldOpt {α : Type} (parse : Json → Option α) (fields : List (Str × Json))
    (name : Str) : Option (Option α) :=
  match lookupA name fields with
  | none => some none
  | some .null => some none
  | some v => (parse v).map some

/-- Looks up a required serde field: it must be present and parse. -/
def getFieldReq {α : Type} (parse : Json → Option α) (fields : List (Str × Json))
    (name : Str) : Option α :=
  match lookupA name fields with
  | none => none
  | some v => parse v

/-- Model of serde_json::from_value::<String>. -/
def fromValueString : Json → Option Str
  | .str s => some s
  | _ => none

/-- Model of serde_json::from_value::<bool>. -/
def fromValueBool : Json → Option Bool
  | .bool b => some b
  | _ => none

/-- Model of serde_json::from_value::<u64>. -/
def fromValueU64 : Json → Option Nat
  | .num n => if 0 ≤ n ∧ n < 2 ^ 64 then some n.toNat else none
  | _ => none

/-- Model of serde_json::from_value::<u32>. -/
def fromValueU32 : Json → Option Nat
  | .num n => if 0 ≤ n ∧ n < 2 ^ 32 then some n.toNat else none
  | _ => none

/-- Model of from_value for a map keyed by strings, HashMap<String, T>.
The deserialized map keeps the field order of the JSON object. -/
def fromValueMap {α : Type} (parse : Json → Option α) : Json → Option (List (Str × α))
  | .obj fields => mapOption (fun kv => (parse kv.2).map (fun a => (kv.1, a))) fields
  | _ => none

/-!
The record schema, translated from src/lib.rs and src/resource.rs.  The
crate guards the @type marker fields behind the non-default feature flag
named typed; the embedding models the crate with that feature disabled, so
those fields are absent and serde ignores @type keys as unknown fields.
HashMap-valued fields become association lists in insertion order.
-/

/-- Represents the card version (enum CardVersion). -/
inductive CardVersion : Type
  | OneDotZero : CardVersion
deriving DecidableEq

/-- The kind of the entity the Card represents (enum CardKind). -/
inductive CardKind : Type
  | Application | Device | Group | Individual | Location | Org : CardKind
deriving DecidableEq

/-- The contexts in which to use the contact information (enum Context). -/
inductive Context : Type
  | Private | Work : Context
deriving DecidableEq

/-- The phonetic system used in the phonetic property (enum PhoneticSystem). -/
inductive PhoneticSystem : Type
  | Ipa | Jyut | Piny : PhoneticSystem
deriving DecidableEq

/-- The kind of the name component (enum NameComponentKind). -/
inductive NameComponentKind : Type
  | Credential | Generation | Given | Given2 | Separator | Surname | Surname2
  | Title : NameComponentKind
deriving DecidableEq

/-- Represents individual components of a name (struct NameComponent). -/
structure NameComponent : Type where
  value : Str
  kind : NameComponentKind
  phonetic : Option Str
deriving DecidableEq

/-- Creates a new NameComponent object (NameComponent::new). -/
def NameComponent.new (kind : NameComponentKind) (value : Str) : NameComponent :=
  { value := value, kind := kind, phonetic := none }

/-- Defines the Name object (struct Name). -/
structure Name : Type where
  components : Option (List NameComponent)
  is_ordered : Option Bool
  default_separator : Option Str
  full : Option Str
  sort_as : Option (List (Str × Str))
  phonetic_script : Option Str
  phonetic_system : Option PhoneticSystem
deriving DecidableEq

/-- The Default instance of Name: every field unset. -/
def Name.default : Name :=
  { components := none, is_ordered := none, default_separator := none, full := none,
    sort_as := none, phonetic_script := none, phonetic_system := none }

/-- Defines the Nickname object (struct Nickname). -/
structure Nickname : Type where
  name : Str
  contexts : Option (List (Context × Bool))
  pref : Option Nat
deriving DecidableEq

/-- Represents a unit within an organization (struct OrgUnit). -/
structure OrgUnit : Type where
  name : Str
  sort_as : Option Str
deriving DecidableEq

/-- Represents an Organization object (struct Organization). -/
structure Organization : Type where
  name : Option Str
  units : Option (List OrgUnit)
  sort_as : Option Str
  contexts : Option (List (Context × Bool))
deriving DecidableEq

/-- The grammatical gender to use in salutations (enum GrammaticalGender). -/
inductive GrammaticalGender : Type
  | Animate | Common | Feminine | Inanimate | Masculine | Neuter : GrammaticalGender
deriving DecidableEq

/-- Defines pronouns used for the entity (struct Pronouns). -/
structure Pronouns : Type where
  pronouns : Str
  contexts : Option (List (Context × Bool))
  pref : Option Nat
deriving DecidableEq

/-- Represents how to address or refer to the entity (struct SpeakToAs). -/
structure SpeakToAs : Type where
  grammatical_gender : Option GrammaticalGender
  pronouns : Option (List (Str × Pronouns))
deriving DecidableEq

/-- Title kind (enum TitleKind). -/
inductive TitleKind : Type
  | Role | Title : TitleKind
deriving DecidableEq

/-- Represents titles or roles of the entity (struct Title). -/
structure Title : Type where
  name : Str
  kind : Option TitleKind
  organization_id : Option Str
deriving DecidableEq

/-- Defines email addresses associated with the entity (struct EmailAddress). -/
structure EmailAddress : Type where
  address : Str
  contexts : Option (List (Context × Bool))
  pref : Option Nat
  label : Option Str
deriving DecidableEq

/-- Represents online services (struct OnlineService). -/
structure OnlineService : Type where
  service : Option Str
  uri : Option Str
  user : Option Str
  contexts : Option (List (Context × Bool))
  pref : Option Nat
  label : Option Str
deriving DecidableEq

/-- The set of contact features of a phone number (enum PhoneFeature). -/
inductive PhoneFeature : Type
  | Fax | MainNumber | Mobile | Pager | Text | Textphone | Video | Voice : PhoneFeature
deriving DecidableEq

/-- Defines phone numbers for the entity (struct Phone). -/
structure Phone : Type where
  number : Str
  features : Option (List (PhoneFeature × Bool))
  contexts : Option (List (Context × Bool))
  pref : Option Nat
  label : Option Str
deriving DecidableEq

/-- Represents preferred languages for communication (struct LanguagePref). -/
structure LanguagePref : Type where
  language : Str
  contexts : Option (List (Context × Bool))
  pref : Option Nat
deriving DecidableEq

/-- Calendar kind (enum CalendarKind). -/
inductive CalendarKind : Type
  | Calendar | FreeBusy : CalendarKind
deriving DecidableEq

/-- The calendaring resources of the entity (struct Calendar). -/
structure Calendar : Type where
  kind : Option CalendarKind
  media_type : Option Str
  uri : Str
  contexts : Option (List (Context × Bool))
  pref : Option Nat
  label : Option Str
deriving DecidableEq

/-- The scheduling addresses of the entity (struct SchedulingAddress). -/
structure SchedulingAddress : Type where
  uri : Str
  contexts : Option (List (Context × Bool))
  pref : Option Nat
  label : Option Str
deriving DecidableEq

/-- The vCard RELATED parameter values (enum RelationshipType). -/
inductive RelationshipType : Type
  | Acquaintance | Agent | Child | CoResident | CoWorker | Colleague | Contact
  | Crush | Date | Emergency | Friend | Kin | Me | Met | Muse | Neighbor
  | Parent | Sibling | Spouse | Sweetheart : RelationshipType
deriving DecidableEq

/-- Represents the Relation object (struct Relation). -/
structure Relation : Type where
  relation : Option (List (RelationshipType × Bool))
deriving DecidableEq

/-- Timestamp (struct Timestamp). -/
structure Timestamp : Type where
  utc : Str
deriving DecidableEq

/-- A complete or partial calendar date (struct PartialDate). -/
structure PartialDate : Type where
  year : Option Nat
  month : Option Nat
  day : Option Nat
  calendar_scale : Option Str
deriving DecidableEq

/-- Represents a date object (enum DateObject, untagged). -/
inductive DateObject : Type
  | Timestamp : Timestamp → DateObject
  | PartialDate : PartialDate → DateObject
deriving DecidableEq

/-- The kind of anniversary (enum AnniversaryKind). -/
inductive AnniversaryKind : Type
  | Birth | Death | Wedding : AnniversaryKind
deriving DecidableEq

/-- The contexts in which to use an address (enum AddressContext). -/
inductive AddressContext : Type
  | Billing | Delivery | Private | Work : AddressContext
deriving DecidableEq

/-- The kind of the address component (enum AddressComponentKind). -/
inductive AddressComponentKind : Type
  | Apartment | Block | Building | Country | Direction | District | Floor
  | Landmark | Locality | Name | Number | Postcode | PostOfficeBox | Region
  | Room | Separator | Subdistrict : AddressComponentKind
deriving DecidableEq

/-- The components that make up the address (struct AddressComponent). -/
structure AddressComponent : Type where
  value : Str
  kind : AddressComponentKind
  phonetic : Option Str
deriving DecidableEq

/-- Creates a new AddressComponent object (AddressComponent::new). -/
def AddressComponent.new (kind : AddressComponentKind) (value : Str) : AddressComponent :=
  { value := value, kind := kind, phonetic := none }

/-- The addresses of the entity (struct Address). -/
structure Address : Type where
  components : Option (List AddressComponent)
  is_ordered : Option Bool
  country_code : Option Str
  coordinates : Option Str
  time_zone : Option Str
  contexts : Option (List (AddressContext × Bool))
  full : Option Str
  default_separator : Option Str
  pref : Option Nat
  phonetic_script : Option Str
  phonetic_system : Option PhoneticSystem
deriving DecidableEq

/-- Represents memorable dates and events (struct Anniversary). -/
structure Anniversary : Type where
  date : DateObject
  kind : AnniversaryKind
  contexts : Option (List (Str × Bool))
  place : Option Address
deriving DecidableEq

/-- The cryptographic resources of the entity (struct CryptoKey). -/
structure CryptoKey : Type where
  uri : Str
  media_type : Option Str
  kind : Option Str
  contexts : Option (List (Context × Bool))
  pref : Option Nat
  label : Option Str
deriving DecidableEq

/-- Directory kind (enum DirectoryKind). -/
inductive DirectoryKind : Type
  | Directory | Entry : DirectoryKind
deriving DecidableEq

/-- The directories containing information about the entity (struct Directory). -/
structure Directory : Type where
  kind : Option DirectoryKind
  uri : Str
  media_type : Option Str
  contexts : Option (List (Context × Bool))
  pref : Option Nat
  label : Option Str
  list_as : Option Nat
deriving DecidableEq

/-- Link kind (enum LinkKind). -/
inductive LinkKind : Type
  | Contact : LinkKind
deriving DecidableEq

/-- The links to other resources (struct Link). -/
structure Link : Type where
  kind : Option LinkKind
  uri : Str
  media_type : Option Str
  contexts : Option (List (Context × Bool))
  pref : Option Nat
  label : Option Str
deriving DecidableEq

/-- Media kind (enum MediaKind). -/
inductive MediaKind : Type
  | Photo | Sound | Logo : MediaKind
deriving DecidableEq

/-- The media resources of the entity (struct Media). -/
structure Media : Type where
  kind : MediaKind
  uri : Str
  media_type : Option Str
  contexts : Option (List (Context × Bool))
  pref : Option Nat
  label : Option Str
deriving DecidableEq

/-- The author of a note (struct Author). -/
structure Author : Type where
  name : Option Str
  uri : Option Str
deriving DecidableEq

/-- The free-text notes of the Card (struct Note). -/
structure Note : Type where
  note : Str
  created : Option Str
  author : Option Author
deriving DecidableEq

/-- The kind of personal information (enum PersonalInfoKind). -/
inductive PersonalInfoKind : Type
  | Expertise | Hobby | Interest : PersonalInfoKind
deriving DecidableEq

/-- The level of expertise or engagement (enum PersonalInfoLevel). -/
inductive PersonalInfoLevel : Type
  | High | Medium | Low : PersonalInfoLevel
deriving DecidableEq

/-- The personal information of the entity (struct PersonalInfo). -/
structure PersonalInfo : Type where
  kind : PersonalInfoKind
  value : Str
  level : Option PersonalInfoLevel
  list_as : Option Nat
  label : Option Str
deriving DecidableEq

/-- Represents the primary Card object as defined in RFC 9553 (struct Card in
src/card.rs).  The localizations field maps a language tag to an Override
Document, itself a map from slash paths to arbitrary JSON values. -/
structure Card : Type where
  card_type : Str
  version : CardVersion
  created : Option Str
  uid : Str
  kind : Option CardKind
  language : Option Str
  members : Option (List (Str × Bool))
  prod_id : Option Str
  related_to : Option (List (Str × Relation))
  updated : Option Str
  name : Option Name
  nicknames : Option (List (Str × Nickname))
  organizations : Option (List (Str × Organization))
  speak_to_as : Option SpeakToAs
  titles : Option (List (Str × Title))
  emails : Option (List (Str × EmailAddress))
  online_services : Option (List (Str × OnlineService))
  phones : Option (List (Str × Phone))
  preferred_languages : Option (List (Str × LanguagePref))
  calendars : Option (List (Str × Calendar))
  scheduling_addresses : Option (List (Str × SchedulingAddress))
  localizations : Option (List (Str × List (Str × Json)))
  anniversaries : Option (List (Str × Anniversary))
  addresses : Option (List (Str × Address))
  crypto_keys : Option (List (Str × CryptoKey))
  directories : Option (List (Str × Directory))
  links : Option (List (Str × Link))
  media : Option (List (Str × Media))
  keywords : Option (List (Str × Bool))
  notes : Option (List (Str × Note))
  personal_info : Option (List (Str × PersonalInfo))

/-- Creates a new Card object with the specified version and unique
identifier (Card::new). -/
def Card.new (version : CardVersion) (uid : Str) : Card :=
  { card_type := chars "Card", version := version, uid := uid,
    created := none, kind := none, language := none, members := none,
    prod_id := none, related_to := none, updated := none, name := none,
    nicknames := none, organizations := none, speak_to_as := none,
    titles := none, emails := none, online_services := none, phones := none,
    preferred_languages := none, calendars := none,
    scheduling_addresses := none, localizations := none,
    anniversaries := none, addresses := none, crypto_keys := none,
    directories := none, links := none, media := none, keywords := none,
    notes := none, personal_info := none }

/-!
Models of serde_json::from_value for every target type the localization
patchers deserialize.  The derived serde deserializers rename fields to
camelCase, ignore unknown fields (such as @type markers), treat a missing
or null optional field as unset, and fail when a present field does not
match its declared type.  Deserializing a struct from a JSON array
(positionally) is not modelled; no override document in the crate uses it.
-/

/-- Model of from_value::<PhoneticSystem>. -/
def fromValuePhoneticSystem : Json → Option PhoneticSystem
  | .str s =>
    if s = chars "ipa" then some .Ipa
    else if s = chars "jyut" then some .Jyut
    else if s = chars "piny" then some .Piny
    else none
  | _ => none

/-- Model of the serde key parser for Context map keys. -/
def contextOfKey (s : Str) : Option Context :=
  if s = chars "private" then some .Private
  else if s = chars "work" then some .Work
  else none

/-- Model of from_value::<HashMap<Context, bool>>. -/
def fromValueContextMap : Json → Option (List (Context × Bool))
  | .obj fields =>
    mapOption (fun kv => do
      let k ← contextOfKey kv.1
      let b ← fromValueBool kv.2
      pure (k, b)) fields
  | _ => none

/-- Model of the serde key parser for AddressContext map keys. -/
def addressContextOfKey (s : Str) : Option AddressContext :=
  if s = chars "billing" then some .Billing
  else if s = chars "delivery" then some .Delivery
  else if s = chars "private" then some .Private
  else if s = chars "work" then some .Work
  else none

/-- Model of from_value::<HashMap<AddressContext, bool>>. -/
def fromValueAddressContextMap : Json → Option (List (AddressContext × Bool))
  | .obj fields =>
    mapOption (fun kv => do
      let k ← addressContextOfKey kv.1
      let b ← fromValueBool kv.2
      pure (k, b)) fields
  | _ => none

/-- Model of from_value::<NameComponentKind>. -/
def fromValueNameComponentKind : Json → Option NameComponentKind
  | .str s =>
    if s = chars "credential" then some .Credential
    else if s = chars "generation" then some .Generation
    else if s = chars "given" then some .Given
    else if s = chars "given2" then some .Given2
    else if s = chars "separator" then some .Separator
    else if s = chars "surname" then some .Surname
    else if s = chars "surname2" then some .Surname2
    else if s = chars "title" then some .Title
    else none
  | _ => none

/-- Model of from_value::<NameComponent>. -/
def fromValueNameComponent : Json → Option NameComponent
  | .obj fields => do
    let value ← getFieldReq fromValueString fields (chars "value")
    let kind ← getFieldReq fromValueNameComponentKind fields (chars "kind")
    let phonetic ← getFieldOpt fromValueString fields (chars "phonetic")
    pure { value := value, kind := kind, phonetic := phonetic }
  | _ => none

/-- Model of from_value::<Vec<NameComponent>>. -/
def fromValueNameComponentList : Json → Option (List NameComponent)
  | .arr xs => mapOption fromValueNameComponent xs
  | _ => none

/-- Model of from_value::<HashMap<String, String>>. -/
def fromValueStringMap : Json → Option (List (Str × Str)) :=
  fromValueMap fromValueString

/-- Model of from_value::<Name>. -/
def fromValueName : Json → Option Name
  | .obj fields => do
    let components ← getFieldOpt fromValueNameComponentList fields (chars "components")
    let is_ordered ← getFieldOpt fromValueBool fields (chars "isOrdered")
    let default_separator ← getFieldOpt fromValueString fields (chars "defaultSeparator")
    let full ← getFieldOpt fromValueString fields (chars "full")
    let sort_as ← getFieldOpt fromValueStringMap fields (chars "sortAs")
    let phonetic_script ← getFieldOpt fromValueString fields (chars "phoneticScript")
    let phonetic_system ← getFieldOpt fromValuePhoneticSystem fields (chars "phoneticSystem")
    pure { components := components, is_ordered := is_ordered,
           default_separator := default_separator, full := full, sort_as := sort_as,
           phonetic_script := phonetic_script, phonetic_system := phonetic_system }
  | _ => none

/-- Model of from_value::<TitleKind>. -/
def fromValueTitleKind : Json → Option TitleKind
  | .str s =>
    if s = chars "role" then some .Role
    else if s = chars "title" then some .Title
    else none
  | _ => none

/-- Model of from_value::<Title>. -/
def fromValueTitle : Json → Option Title
  | .obj fields => do
    let name ← getFieldReq fromValueString fields (chars "name")
    let kind ← getFieldOpt fromValueTitleKind fields (chars "kind")
    let organization_id ← getFieldOpt fromValueString fields (chars "organizationId")
    pure { name := name, kind := kind, organization_id := organization_id }
  | _ => none

/-- Model of from_value::<HashMap<String, Title>>. -/
def fromValueTitleMap : Json → Option (List (Str × Title)) :=
  fromValueMap fromValueTitle

/-- Model of from_value::<Nickname>. -/
def fromValueNickname : Json → Option Nickname
  | .obj fields => do
    let name ← getFieldReq fromValueString fields (chars "name")
    let contexts ← getFieldOpt fromValueContextMap fields (chars "contexts")
    let pref ← getFieldOpt fromValueU32 fields (chars "pref")
    pure { name := name, contexts := contexts, pref := pref }
  | _ => none

/-- Model of from_value::<HashMap<String, Nickname>>. -/
def fromValueNicknameMap : Json → Option (List (Str × Nickname)) :=
  fromValueMap fromValueNickname

/-- Model of from_value::<AddressComponentKind>. -/
def fromValueAddressComponentKind : Json → Option AddressComponentKind
  | .str s =>
    if s = chars "apartment" then some .Apartment
    else if s = chars "block" then some .Block
    else if s = chars "building" then some .Building
    else if s = chars "country" then some .Country
    else if s = chars "direction" then some .Direction
    else if s = chars "district" then some .District
    else if s = chars "floor" then some .Floor
    else if s = chars "landmark" then some .Landmark
    else if s = chars "locality" then some .Locality
    else if s = chars "name" then some .Name
    else if s = chars "number" then some .Number
    else if s = chars "postcode" then some .Postcode
    else if s = chars "postOfficeBox" then some .PostOfficeBox
    else if s = chars "region" then some .Region
    else if s = chars "room" then some .Room
    else if s = chars "separator" then some .Separator
    else if s = chars "subdistrict" then some .Subdistrict
    else none
  | _ => none

/-- Model of from_value::<AddressComponent>. -/
def fromValueAddressComponent : Json → Option AddressComponent
  | .obj fields => do
    let value ← getFieldReq fromValueString fields (chars "value")
    let kind ← getFieldReq fromValueAddressComponentKind fields (chars "kind")
    let phonetic ← getFieldOpt fromValueString fields (chars "phonetic")
    pure { value := value, kind := kind, phonetic := phonetic }
  | _ => none

/-- Model of from_value::<Vec<AddressComponent>>. -/
def fromValueAddressComponentList : Json → Option (List AddressComponent)
  | .arr xs => mapOption fromValueAddressComponent xs
  | _ => none

/-- Model of from_value::<Address>. -/
def fromValueAddress : Json → Option Address
  | .obj fields => do
    let components ← getFieldOpt fromValueAddressComponentList fields (chars "components")
    let is_ordered ← getFieldOpt fromValueBool fields (chars "isOrdered")
    let country_code ← getFieldOpt fromValueString fields (chars "countryCode")
    let coordinates ← getFieldOpt fromValueString fields (chars "coordinates")
    let time_zone ← getFieldOpt fromValueString fields (chars "timeZone")
    let contexts ← getFieldOpt fromValueAddressContextMap fields (chars "contexts")
    let full ← getFieldOpt fromValueString fields (chars "full")
    let default_separator ← getFieldOpt fromValueString fields (chars "defaultSeparator")
    let pref ← getFieldOpt fromValueU64 fields (chars "pref")
    let phonetic_script ← getFieldOpt fromValueString fields (chars "phoneticScript")
    let phonetic_system ← getFieldOpt fromValuePhoneticSystem fields (chars "phoneticSystem")
    pure { components := components, is_ordered := is_ordered,
           country_code := country_code, coordinates := coordinates,
           time_zone := time_zone, contexts := contexts, full := full,
           default_separator := default_separator, pref := pref,
           phonetic_script := phonetic_script, phonetic_system := phonetic_system }
  | _ => none

/-- Model of from_value::<HashMap<String, Address>>. -/
def fromValueAddressMap : Json → Option (List (Str × Address)) :=
  fromValueMap fromValueAddress

/-- Model of from_value::<PersonalInfoKind>. -/
def fromValuePersonalInfoKind : Json → Option PersonalInfoKind
  | .str s =>
    if s = chars "expertise" then some .Expertise
    else if s = chars "hobby" then some .Hobby
    else if s = chars "interest" then some .Interest
    else none
  | _ => none

/-- Model of from_value::<PersonalInfoLevel>. -/
def fromValuePersonalInfoLevel : Json → Option PersonalInfoLevel
  | .str s =>
    if s = chars "high" then some .High
    else if s = chars "medium" then some .Medium
    else if s = chars "low" then some .Low
    else none
  | _ => none

/-- Model of from_value::<PersonalInfo>. -/
def fromValuePersonalInfo : Json → Option PersonalInfo
  | .obj fields => do
    let kind ← getFieldReq fromValuePersonalInfoKind fields (chars "kind")
    let value ← getFieldReq fromValueString fields (chars "value")
    let level ← getFieldOpt fromValuePersonalInfoLevel fields (chars "level")
    let list_as ← getFieldOpt fromValueU64 fields (chars "listAs")
    let label ← getFieldOpt fromValueString fields (chars "label")
    pure { kind := kind, value := value, level := level, list_as := list_as,
           label := label }
  | _ => none

/-- Model of from_value::<HashMap<String, PersonalInfo>>. -/
def fromValuePersonalInfoMap : Json → Option (List (Str × PersonalInfo)) :=
  fromValueMap fromValuePersonalInfo

/-- Model of from_value::<Author>. -/
def fromValueAuthor : Json → Option Author
  | .obj fields => do
    let name ← getFieldOpt fromValueString fields (chars "name")
    let uri ← getFieldOpt fromValueString fields (chars "uri")
    pure { name := name, uri := uri }
  | _ => none

/-- Model of from_value::<Note>. -/
def fromValueNote : Json → Option Note
  | .obj fields => do
    let note ← getFieldReq fromValueString fields (chars "note")
    let created ← getFieldOpt fromValueString fields (chars "created")
    let author ← getFieldOpt fromValueAuthor fields (chars "author")
    pure { note := note, created := created, author := author }
  | _ => none

/-- Model of from_value::<HashMap<String, Note>>. -/
def fromValueNoteMap : Json → Option (List (Str × Note)) :=
  fromValueMap fromValueNote

/-- Model of from_value::<HashMap<String, bool>>. -/
def fromValueBoolMap : Json → Option (List (Str × Bool)) :=
  fromValueMap fromValueBool

/-!
The per-property patchers and the resolver driver, translated from
src/card.rs.  Each Rust patcher receives the scratch clone of the card by
mutable reference; the embedding passes the card in and returns the updated
card in an Except value.  When a Rust patcher returns Err after having
already mutated the scratch clone through an alias, the embedding returns
only the error: the partially mutated clone is discarded by get_localized
in both versions, so the difference is unobservable through the public
entry point.
-/

/-- Model of Rust str::starts_with for a string pattern. -/
def strStartsWith (s p : Str) : Bool := p.isPrefixOf s

/-- Localize the Name (fn localize_name, src/card.rs).  The Rust function
binds curr_name either to the live name field or, when the name is unset,
to a temporary default; the one early return that writes through this
binding without a final write-back (the whole components replacement) is
therefore effective only when the name was set, which the match below
reproduces. -/
def localize_name (card : Card) (key : Str) (value : Json) : Except Str Card :=
  if key = chars "name" then
    .ok { card with name := fromValueName value }
  else
    let curr0 : Name := card.name.getD Name.default
    let key1 := replaceAll key (chars "name/") []
    if strStartsWith key1 (chars "components") then
      if key1 = chars "components" then
      match card.name with
      | some n =>
        .ok { card with name := some { n with components := fromValueNameComponentList value } }
      | none => .ok card
      else
        let comps : List NameComponent := curr0.components.getD []
        let key2 := replaceAll key1 (chars "components/") []
        match (splitOn '/' key2).head? with
        | none => .error (chars "Index out of bounds")
        | some idxStr =>
          let key3 := replaceAll key2 (idxStr ++ ['/']) []
          match parseNat? idxStr with
          | none => .error (chars "Index out of bounds")
          | some idx =>
            if hle : comps.length ≤ idx then
              .error (chars "Index out of bounds")
            else
              let component := comps.get ⟨idx, by omega⟩
              if key3 = chars "value" then
                match fromValueString value with
                | none => .error (chars "Invalid value")
                | some s =>
                  let comps' := comps.set idx { component with value := s }
                  .ok { card with name := some { curr0 with components := some comps' } }
              else if key3 = chars "phonetic" then
                let comps' := comps.set idx { component with phonetic := fromValueString value }
                .ok { card with name := some { curr0 with components := some comps' } }
              else
                .ok { card with name := some { curr0 with components := some comps } }
    else if key1 = chars "full" then
      .ok { card with name := some { curr0 with full := fromValueString value } }
    else if key1 = chars "phoneticSystem" then
      .ok { card with name := some { curr0 with phonetic_system := fromValuePhoneticSystem value } }
    else if key1 = chars "phoneticScript" then
      .ok { card with name := some { curr0 with phonetic_script := fromValueString value } }
    else
      .ok { card with name := some curr0 }

/-- Localize the Titles (fn localize_titles, src/card.rs). -/
def localize_titles (card : Card) (key : Str) (value : Json) : Except Str Card :=
  if key = chars "titles" then
    .ok { card with titles := fromValueTitleMap value }
  else
    let titles0 := card.titles.getD []
    let key1 := replaceAll key (chars "titles/") []
    match (splitOn '/' key1).head? with
    | none => .error (chars "Index out of bounds")
    | some idxKey =>
      let key2 := replaceAll key1 idxKey []
      if key2 = [] then
        match fromValueTitle value with
        | none => .error (chars "Invalid value")
        | some t => .ok { card with titles := some (insertA idxKey t titles0) }
      else
        let key3 := removeFirst key2
        match lookupA idxKey titles0 with
        | none => .error (chars "titles key '" ++ idxKey ++ chars "' not found")
        | some t =>
          if key3 = chars "name" then
            match fromValueString value with
            | none => .error (chars "Invalid value")
            | some s =>
              .ok { card with titles := some (insertA idxKey { t with name := s } titles0) }
          else if key3 = chars "kind" then
            .ok { card with titles := some (insertA idxKey { t with kind := fromValueTitleKind value } titles0) }
          else if key3 = chars "organizationId" then
            match fromValueString value with
            | none => .error (chars "Invalid value")
            | some s =>
              .ok { card with titles := some (insertA idxKey { t with organization_id := some s } titles0) }
          else
            .ok { card with titles := some titles0 }

/-- The indexed-component half of the components branch of fn
localize_addresses (src/card.rs), split into its own definition to keep
each term small for the branch analyses below.  Receives the remainder
key5 after the numeric index, the parsed index, the component list after
the auto-extension loop (so the indexed read below is always in range and
never falls back to its default), and the complete override path fullKey
used only in the interpolated error messages. -/
def localize_addresses_component_set (card : Card) (fullKey : Str) (value : Json)
    (addrs0 : List (Str × Address)) (idxKey : Str) (addr : Address)
    (key5 : Str) (idx : Nat) (comps : List AddressComponent) : Except Str Card :=
  if key5 = [] then
    match fromValueAddressComponent value with
    | none => .error (chars "Invalid value")
    | some comp =>
      .ok { card with addresses := some (insertA idxKey { addr with components := some (comps.set idx comp) } addrs0) }
  else
    let component := comps.getD idx (AddressComponent.new .Apartment (chars "DEFAULT"))
    if key5 = chars "value" then
      match fromValueString value with
      | none =>
        .error (chars "Invalid value: " ++ renderJson value ++ chars " for value (at " ++ fullKey ++ chars ")")
      | some s =>
        .ok { card with addresses := some (insertA idxKey { addr with components := some (comps.set idx { component with value := s }) } addrs0) }
    else if key5 = chars "kind" then
      match fromValueAddressComponentKind value with
      | none =>
        .error (chars "Invalid value: " ++ renderJson value ++ chars " for kind (at " ++ fullKey ++ chars ")")
      | some kd =>
        .ok { card with addresses := some (insertA idxKey { addr with components := some (comps.set idx { component with kind := kd }) } addrs0) }
    else if key5 = chars "phonetic" then
      .ok { card with addresses := some (insertA idxKey { addr with components := some (comps.set idx { component with phonetic := fromValueString value }) } addrs0) }
    else
      .ok { card with addresses := some (insertA idxKey { addr with components := some comps } addrs0) }

/-- The components branch of fn localize_addresses (src/card.rs): handles a
remainder key3 that starts with the word components, for the address entry
addr stored under idxKey.  Split from localize_addresses to keep each
definition small for the branch analyses below. -/
def localize_addresses_components (card : Card) (fullKey : Str) (value : Json)
    (addrs0 : List (Str × Address)) (idxKey : Str) (addr : Address)
    (key3 : Str) : Except Str Card :=
  if key3 = chars "components" then
    .ok { card with addresses := some (insertA idxKey { addr with components := fromValueAddressComponentList value } addrs0) }
  else
    let comps0 := addr.components.getD []
    let key4 := replaceAll key3 (chars "components/") []
    match (splitOn '/' key4).head? with
    | none => .error (chars "Index out of bounds")
    | some idxStr =>
      let key5 := removeFirst (replaceAll key4 idxStr [])
      match parseNat? idxStr with
      | none => .error (chars "Index out of bounds")
      | some idx =>
        let comps := comps0 ++
          List.replicate (idx + 1 - comps0.length) (AddressComponent.new .Apartment (chars "DEFAULT"))
        localize_addresses_component_set card fullKey value addrs0 idxKey addr key5 idx comps

/-- Localize the Addresses (fn localize_addresses, src/card.rs).  The first
argument of the two helpers above is the complete path, bound to fullKey at
the top of the Rust function. -/
def localize_addresses (card : Card) (key : Str) (value : Json) : Except Str Card :=
  if key = chars "addresses" then
    .ok { card with addresses := fromValueAddressMap value }
  else
    let key1 := replaceAll key (chars "addresses/") []
    let addrs0 := card.addresses.getD []
    match (splitOn '/' key1).head? with
    | none => .error (chars "Invalid addresses key")
    | some idxKey =>
      let key2 := replaceAll key1 idxKey []
      let key3 := removeFirst key2
      match lookupA idxKey addrs0 with
      | none => .error (chars "addresses key '" ++ idxKey ++ chars "' not found")
      | some addr =>
        if strStartsWith key3 (chars "components") then
          localize_addresses_components card key value addrs0 idxKey addr key3
        else if key3 = chars "full" then
          .ok { card with addresses := some (insertA idxKey { addr with full := fromValueString value } addrs0) }
        else if key3 = chars "countryCode" then
          .ok { card with addresses := some (insertA idxKey { addr with country_code := fromValueString value } addrs0) }
        else if key3 = chars "coordinates" then
          .ok { card with addresses := some (insertA idxKey { addr with coordinates := fromValueString value } addrs0) }
        else if key3 = chars "timeZone" then
          .ok { card with addresses := some (insertA idxKey { addr with time_zone := fromValueString value } addrs0) }
        else if key3 = chars "contexts" then
          .ok { card with addresses := some (insertA idxKey { addr with contexts := fromValueAddressContextMap value } addrs0) }
        else if key3 = [] then
          match fromValueAddress value with
          | none => .error (chars "Invalid value")
          | some a => .ok { card with addresses := some (insertA idxKey a addrs0) }
        else
          .ok { card with addresses := some addrs0 }

/-- Localize the Nicknames (fn localize_nicknames, src/card.rs). -/
def localize_nicknames (card : Card) (key : Str) (value : Json) : Except Str Card :=
  if key = chars "nicknames" then
    .ok { card with nicknames := fromValueNicknameMap value }
  else
    let nicks0 := card.nicknames.getD []
    let key1 := replaceAll key (chars "nicknames") []
    if key1 = [] then
      match fromValueNicknameMap value with
      | none => .error (chars "Invalid value")
      | some m => .ok { card with nicknames := some m }
    else
      let key2 := removeFirst key1
      match (splitOn '/' key2).head? with
      | none => .error (chars "Invalid nicknames key")
      | some idxKey =>
        let key3 := replaceAll key2 idxKey []
        if key3 = [] then
          match fromValueNickname value with
          | none => .error (chars "Invalid value")
          | some nk => .ok { card with nicknames := some (insertA idxKey nk nicks0) }
        else
          let key4 := removeFirst key3
          match lookupA idxKey nicks0 with
          | none => .error (chars "nicknames key '" ++ idxKey ++ chars "' not found")
          | some nk =>
            if key4 = chars "name" then
              match fromValueString value with
              | none => .error (chars "Invalid value")
              | some s =>
                .ok { card with nicknames := some (insertA idxKey { nk with name := s } nicks0) }
            else
              .ok { card with nicknames := some nicks0 }

/-- Localize the PersonalInfos (fn localize_personal_info, src/card.rs). -/
def localize_personal_info (card : Card) (key : Str) (value : Json) : Except Str Card :=
  if key = chars "personalInfo" then
    .ok { card with personal_info := fromValuePersonalInfoMap value }
  else
    let pis0 := card.personal_info.getD []
    let key1 := replaceAll key (chars "personalInfo") []
    if key1 = [] then
      match fromValuePersonalInfoMap value with
      | none => .error (chars "Invalid value")
      | some m => .ok { card with personal_info := some m }
    else
      let key2 := removeFirst key1
      match (splitOn '/' key2).head? with
      | none => .error (chars "Invalid personalInfo key")
      | some idxKey =>
        let key3 := replaceAll key2 idxKey []
        if key3 = [] then
          match fromValuePersonalInfo value with
          | none => .error (chars "Invalid value")
          | some pi => .ok { card with personal_info := some (insertA idxKey pi pis0) }
        else
          let key4 := removeFirst key3
          match lookupA idxKey pis0 with
          | none => .error (chars "personalInfo key '" ++ idxKey ++ chars "' not found")
          | some pi =>
            if key4 = chars "value" then
              match fromValueString value with
              | none => .error (chars "Invalid value")
              | some s =>
                .ok { card with personal_info := some (insertA idxKey { pi with value := s } pis0) }
            else if key4 = chars "kind" then
              match fromValuePersonalInfoKind value with
              | none => .error (chars "Invalid value")
              | some kd =>
                .ok { card with personal_info := some (insertA idxKey { pi with kind := kd } pis0) }
            else
              .ok { card with personal_info := some pis0 }

/-- Localize the Notes (fn localize_notes, src/card.rs). -/
def localize_notes (card : Card) (key : Str) (value : Json) : Except Str Card :=
  if key = chars "notes" then
    .ok { card with notes := fromValueNoteMap value }
  else
    let notes0 := card.notes.getD []
    let key1 := replaceAll key (chars "notes") []
    if key1 = [] then
      match fromValueNoteMap value with
      | none => .error (chars "Invalid value")
      | some m => .ok { card with notes := some m }
    else
      let key2 := removeFirst key1
      match (splitOn '/' key2).head? with
      | none => .error (chars "Invalid notes key")
      | some idxKey =>
        let key3 := replaceAll key2 idxKey []
        if key3 = [] then
          match fromValueNote value with
          | none => .error (chars "Invalid value")
          | some n => .ok { card with notes := some (insertA idxKey n notes0) }
        else
          let key4 := removeFirst key3
          match lookupA idxKey notes0 with
          | none => .error (chars "notes key '" ++ idxKey ++ chars "' not found")
          | some n =>
            if key4 = chars "note" then
              match fromValueString value with
              | none => .error (chars "Invalid value")
              | some s =>
                .ok { card with notes := some (insertA idxKey { n with note := s } notes0) }
            else if key4 = chars "created" then
              .ok { card with notes := some (insertA idxKey { n with created := fromValueString value } notes0) }
            else if key4 = chars "author" then
              match fromValueAuthor value with
              | none => .error (chars "Invalid value")
              | some a =>
                .ok { card with notes := some (insertA idxKey { n with author := some a } notes0) }
            else
              .ok { card with notes := some notes0 }

/-- Localize the Keywords (fn localize_keywords, src/card.rs): only the
whole-map replacement is handled; every deeper path is silently ignored. -/
def localize_keywords (card : Card) (key : Str) (value : Json) : Except Str Card :=
  if key = chars "keywords" then
    .ok { card with keywords := fromValueBoolMap value }
  else
    .ok card

/-- One iteration of the dispatch loop of Card::get_localized: routes an
override entry to the patcher selected by the prefix of its path, in the
order the source tests the prefixes; entries matching no prefix are
silently skipped. -/
def applyOverride (card : Card) (key : Str) (value : Json) : Except Str Card :=
  if strStartsWith key (chars "name") then localize_name card key value
  else if strStartsWith key (chars "titles") then localize_titles card key value
  else if strStartsWith key (chars "addresses") then localize_addresses card key value
  else if strStartsWith key (chars "nicknames") then localize_nicknames card key value
  else if strStartsWith key (chars "personalInfo") then localize_personal_info card key value
  else if strStartsWith key (chars "notes") then localize_notes card key value
  else if strStartsWith key (chars "keywords") then localize_keywords card key value
  else .ok card

/-- The dispatch loop of Card::get_localized over the entries of an
override document.  Rust iterates the HashMap in unspecified order; the
embedding fixes the insertion order of the document.  The question-mark
operator of the loop body becomes the error short-circuit. -/
def applyOverrides (card : Card) : List (Str × Json) → Except Str Card
  | [] => .ok card
  | (k, v) :: rest =>
    match applyOverride card k v with
    | .ok card' => applyOverrides card' rest
    | .error e => .error e

/-- Get the localized Card object for the specified language
(Card::get_localized, src/card.rs).  Returns a clone of the card when it
has no override table or no document for the language; otherwise applies
the document entries to a clone. -/
def Card.get_localized (self : Card) (language : Str) : Except Str Card :=
  match self.localizations with
  | none => .ok self
  | some locs =>
    match lookupA language locs with
    | none => .ok self
    | some doc => applyOverrides self doc

/-- The dispatch loop with the borrow structure made explicit: the base
record (the Rust self, accessible only through a shared reference) is
threaded through the loop unchanged next to the scratch clone that the
patchers mutate.  Returns the base record as it stands after the loop,
together with the result. -/
def resolveLoop (base scratch : Card) : List (Str × Json) → Card × Except Str Card
  | [] => (base, .ok scratch)
  | (k, v) :: rest =>
    match applyOverride scratch k v with
    | .ok scratch' => resolveLoop base scratch' rest
    | .error e => (base, .error e)

/-- Card::get_localized with the borrow structure made explicit: the first
component of the result is the caller's record after the call, the second
the returned value.  The only mutable state of the Rust function is the
scratch clone; self is only ever read. -/
def Card.get_localized_call (self : Card) (language : Str) : Card × Except Str Card :=
  match self.localizations with
  | none => (self, .ok self)
  | some locs =>
    match lookupA language locs with
    | none => (self, .ok self)
    | some doc => resolveLoop self self doc

/-!
Concrete records used by the claim witnesses and counterexamples.  They
mirror the fixtures of tests/test_localizations.rs and the examples of the
specification.
-/

/-- A region address component with value reg, the single base component of
the auto-extension example. -/
def exRegionComponent : AddressComponent :=
  { value := chars "reg", kind := .Region, phonetic := none }

/-- The placeholder component appended by the auto-extension loop. -/
def exPlaceholder : AddressComponent := AddressComponent.new .Apartment (chars "DEFAULT")

/-- The address of the auto-extension example: one region component, every
other field unset. -/
def exAddressK26 : Address :=
  { components := some [exRegionComponent], is_ordered := none, country_code := none,
    coordinates := none, time_zone := none, contexts := none, full := none,
    default_separator := none, pref := none, phonetic_script := none,
    phonetic_system := none }

/-- The postcode override value of the auto-extension example. -/
def exPostcodeJson : Json :=
  Json.obj [(chars "kind", Json.str (chars "postcode")),
            (chars "value", Json.str (chars "〒100-8994"))]

/-- The component the postcode override value deserializes to. -/
def exPostcodeComponent : AddressComponent :=
  { value := chars "〒100-8994", kind := .Postcode, phonetic := none }

/-- The record of the component auto-extension example: one address under
the key k26 with a single component, and an override document for en
targeting component index 6. -/
def exCardAutoExtend : Card :=
  { Card.new .OneDotZero (chars "1234") with
    addresses := some [(chars "k26", exAddressK26)],
    localizations := some [(chars "en",
      [(chars "addresses/k26/components/6", exPostcodeJson)])] }

/-- The seven-element component list that the auto-extension example
resolves to: placeholders at indices one to five, the override at index
six. -/
def exExtendedComponents : List AddressComponent :=
  [exRegionComponent, exPlaceholder, exPlaceholder, exPlaceholder,
   exPlaceholder, exPlaceholder, exPostcodeComponent]

/-- The expected result of resolving the auto-extension example. -/
def exCardAutoExtendResult : Card :=
  { exCardAutoExtend with
    addresses := some [(chars "k26", { exAddressK26 with components := some exExtendedComponents })] }

/-- Like the auto-extension example, but the address entry key is the
single letter c, which also occurs inside the word components; the
remove-every-occurrence path parsing then destroys the remainder. -/
def exCardAutoExtendCex : Card :=
  { Card.new .OneDotZero (chars "1234") with
    addresses := some [(chars "c", exAddressK26)],
    localizations := some [(chars "en",
      [(chars "addresses/c/components/6", exPostcodeJson)])] }

/-- The record of the strict-index example: a one-component name and an
override addressing component index 1. -/
def exCardStrictIndex : Card :=
  { Card.new .OneDotZero (chars "1234") with
    name := some { Name.default with components := some [NameComponent.new .Given (chars "A")] },
    localizations := some [(chars "en",
      [(chars "name/components/1/value", Json.str (chars "X"))])] }

/-- The record of the leaf-merge example: a full name and an override of
the path name/full for en. -/
def exCardLeafMerge : Card :=
  { Card.new .OneDotZero (chars "1234") with
    name := some { Name.default with full := some (chars "Okubo Masahito Motohiro") },
    localizations := some [(chars "en",
      [(chars "name/full", Json.str (chars "Okubo Masahito"))])] }

/-- The expected result of resolving the leaf-merge example. -/
def exCardLeafMergeResult : Card :=
  { exCardLeafMerge with
    name := some { Name.default with full := some (chars "Okubo Masahito") } }

/-- A record holding an override document for French only. -/
def exCardFrenchOnly : Card :=
  { Card.new .OneDotZero (chars "1234") with
    name := some { Name.default with full := some (chars "Jean") },
    localizations := some [(chars "fr",
      [(chars "name/full", Json.str (chars "John"))])] }

/-- The sound media entry of the media localization test of the repository. -/
def exMediaRes45 : Media :=
  { kind := .Sound, uri := chars "CID:JOHNQ.part8.19960229T080000.xyzMail@example.com",
    media_type := none, contexts := none, pref := none, label := none }

/-- The record of the media localization test: a media property and a
whole-property media override for en that shortens the uri to CID:. -/
def exCardMedia : Card :=
  { Card.new .OneDotZero (chars "1234") with
    media := some [(chars "res45", exMediaRes45)],
    localizations := some [(chars "en",
      [(chars "media", Json.obj [(chars "res45",
        Json.obj [(chars "kind", Json.str (chars "sound")),
                  (chars "uri", Json.str (chars "CID:"))])])])] }

/-- A record whose name is set and whose override document replaces the
whole name property with a number, which no Name deserializes from. -/
def exCardBadName : Card :=
  { Card.new .OneDotZero (chars "1234") with
    name := some { Name.default with full := some (chars "X") },
    localizations := some [(chars "en", [(chars "name", Json.num 5)])] }

/-- A title entry named Boss. -/
def exTitleBoss : Title := { name := chars "Boss", kind := none, organization_id := none }

/-- The title the boundary-collision override value deserializes to. -/
def exTitleT : Title := { name := chars "T", kind := none, organization_id := none }

/-- A record whose titles map holds an entry under the key name, with an
override document addressing titles/name/name. -/
def exCardTitlesName : Card :=
  { Card.new .OneDotZero (chars "1234") with
    titles := some [(chars "name", exTitleBoss)],
    localizations := some [(chars "en",
      [(chars "titles/name/name", Json.str (chars "X"))])] }

/-- A record whose titles map holds only t1, with an override whose entry
key mytitles ends in the letters titles, so that prefix stripping removes
more than the leading property name. -/
def exCardTitlesBoundary : Card :=
  { Card.new .OneDotZero (chars "1234") with
    titles := some [(chars "t1", exTitleBoss)],
    localizations := some [(chars "en",
      [(chars "titles/mytitles/field", Json.obj [(chars "name", Json.str (chars "T"))])])] }

/-- A record whose titles map holds only t1, with a sub-field override for
the absent entry key zz. -/
def exCardTitlesMissing : Card :=
  { Card.new .OneDotZero (chars "1234") with
    titles := some [(chars "t1", exTitleBoss)],
    localizations := some [(chars "en",
      [(chars "titles/zz/name", Json.str (chars "X"))])] }

/-- A record whose titles map holds t1, with an override of titles/t1/name
by a number, which no String deserializes from. -/
def exCardTitlesBadValue : Card :=
  { Card.new .OneDotZero (chars "1234") with
    titles := some [(chars "t1", exTitleBoss)],
    localizations := some [(chars "en",
      [(chars "titles/t1/name", Json.num 7)])] }

/-- A record whose document holds a good entry, then a failing entry, then
a further entry, exercising the abort-on-error path of the loop. -/
def exCardAbort : Card :=
  { Card.new .OneDotZero (chars "1234") with
    name := some { Name.default with full := some (chars "B0") },
    localizations := some [(chars "en",
      [(chars "name/full", Json.str (chars "B1")),
       (chars "titles/zz/name", Json.str (chars "X")),
       (chars "keywords", Json.obj [(chars "k", Json.bool true)])])] }

/-- The scratch record of the abort example after its first entry. -/
def exCardAbortMid : Card :=
  { exCardAbort with name := some { Name.default with full := some (chars "B1") } }

/-!
General lemmas about the string helpers and frame lemmas showing that each
patcher changes at most its own property of the card.
-/

/-- The first segment returned by splitOn is the longest slash-free prefix. -/
theorem splitOn_head (sep : Char) (s : Str) :
    (splitOn sep s).head? = some (s.takeWhile (fun c => c != sep)) := by
  induction s with
  | nil => rfl
  | cons a rest ih =>
    unfold splitOn
    cases hr : splitOn sep rest with
    | nil => rw [hr] at ih; simp at ih
    | cons y ys =>
      rw [hr] at ih
      simp only [List.head?, Option.some.injEq] at ih
      by_cases ha : a = sep
      · subst ha
        simp [List.takeWhile_cons]
      · simp [ha, List.takeWhile_cons, ih]

/-- Taking the slash-free prefix of a key followed by a slash recovers the
key. -/
theorem takeWhile_append_sep {k : Str} (rest : Str) (hk : '/' ∉ k) :
    (k ++ '/' :: rest).takeWhile (fun c => c != '/') = k := by
  induction k with
  | nil => simp [List.takeWhile]
  | cons a as ih =>
    have ha : a ≠ '/' := fun h => hk (h ▸ List.mem_cons_self a as)
    have has : '/' ∉ as := fun h => hk (List.mem_cons_of_mem a h)
    simp [List.takeWhile_cons, ha, ih has]

/-- A list is a prefix of itself followed by anything. -/
theorem isPrefixOf_append (p r : Str) : p.isPrefixOf (p ++ r) = true := by
  induction p with
  | nil => simp [List.isPrefixOf]
  | cons a as ih => simp [List.isPrefixOf, ih]

/-- Replacing every occurrence of a non-empty string inside itself by the
empty string leaves the empty string. -/
theorem replaceAll_self (s : Str) (h : s ≠ []) : replaceAll s s [] = [] := by
  cases s with
  | nil => exact absurd rfl h
  | cons a rest =>
    show replaceAllFuel (a :: rest) [] (rest.length + 1) (a :: rest) = []
    rw [replaceAllFuel]
    have hpre : (a :: rest).isPrefixOf (a :: rest) = true := by
      have h0 := isPrefixOf_append (a :: rest) []
      rwa [List.append_nil] at h0
    rw [if_pos ⟨List.cons_ne_nil a rest, hpre⟩]
    have hdrop : (a :: rest).drop (a :: rest).length = ([] : Str) := List.drop_length _
    rw [hdrop]
    cases rest <;> rfl

/-- The patcher of the name property changes at most the name field. -/
theorem localize_name_frame {c : Card} {k : Str} {v : Json} {c' : Card}
    (h : localize_name c k v = .ok c') : ∃ x, c' = { c with name := x } := by
  unfold localize_name at h
  simp only [] at h
  repeat' split at h
  all_goals first
    | exact Except.noConfusion h
    | (injection h with h2; exact ⟨_, h2.symm⟩)

/-- The patcher of the titles property changes at most the titles field. -/
theorem localize_titles_frame {c : Card} {k : Str} {v : Json} {c' : Card}
    (h : localize_titles c k v = .ok c') : ∃ x, c' = { c with titles := x } := by
  unfold localize_titles at h
  simp only [] at h
  repeat' split at h
  all_goals first
    | exact Except.noConfusion h
    | (injection h with h2; exact ⟨_, h2.symm⟩)

/-- The component-setting helper changes at most the addresses field. -/
theorem localize_addresses_component_set_frame {c : Card} {fk : Str} {v : Json}
    {m : List (Str × Address)} {ik : Str} {a : Address} {k5 : Str} {i : Nat}
    {cs : List AddressComponent} {c' : Card}
    (h : localize_addresses_component_set c fk v m ik a k5 i cs = .ok c') :
    ∃ x, c' = { c with addresses := x } := by
  unfold localize_addresses_component_set at h
  simp only [] at h
  repeat' split at h
  all_goals first
    | exact Except.noConfusion h
    | (injection h with h2; exact ⟨_, h2.symm⟩)

/-- The components branch changes at most the addresses field. -/
theorem localize_addresses_components_frame {c : Card} {fk : Str} {v : Json}
    {m : List (Str × Address)} {ik : Str} {a : Address} {k3 : Str} {c' : Card}
    (h : localize_addresses_components c fk v m ik a k3 = .ok c') :
    ∃ x, c' = { c with addresses := x } := by
  unfold localize_addresses_components at h
  simp only [] at h
  repeat' split at h
  all_goals first
    | exact Except.noConfusion h
    | exact localize_addresses_component_set_frame h
    | (injection h with h2; exact ⟨_, h2.symm⟩)

/-- The patcher of the addresses property changes at most the addresses
field. -/
theorem localize_addresses_frame {c : Card} {k : Str} {v : Json} {c' : Card}
    (h : localize_addresses c k v = .ok c') : ∃ x, c' = { c with addresses := x } := by
  unfold localize_addresses at h
  simp only [] at h
  repeat' split at h
  all_goals first
    | exact Except.noConfusion h
    | exact localize_addresses_components_frame h
    | (injection h with h2; exact ⟨_, h2.symm⟩)

/-- The patcher of the nicknames property changes at most the nicknames
field. -/
theorem localize_nicknames_frame {c : Card} {k : Str} {v : Json} {c' : Card}
    (h : localize_nicknames c k v = .ok c') : ∃ x, c' = { c with nicknames := x } := by
  unfold localize_nicknames at h
  simp only [] at h
  repeat' split at h
  all_goals first
    | exact Except.noConfusion h
    | (injection h with h2; exact ⟨_, h2.symm⟩)

/-- The patcher of the personalInfo property changes at most the
personal_info field. -/
theorem localize_personal_info_frame {c : Card} {k : Str} {v : Json} {c' : Card}
    (h : localize_personal_info c k v = .ok c') : ∃ x, c' = { c with personal_info := x } := by
  unfold localize_personal_info at h
  simp only [] at h
  repeat' split at h
  all_goals first
    | exact Except.noConfusion h
    | (injection h with h2; exact ⟨_, h2.symm⟩)

/-- The patcher of the notes property changes at most the notes field. -/
theorem localize_notes_frame {c : Card} {k : Str} {v : Json} {c' : Card}
    (h : localize_notes c k v = .ok c') : ∃ x, c' = { c with notes := x } := by
  unfold localize_notes at h
  simp only [] at h
  repeat' split at h
  all_goals first
    | exact Except.noConfusion h
    | (injection h with h2; exact ⟨_, h2.symm⟩)

/-- The patcher of the keywords property changes at most the keywords
field. -/
theorem localize_keywords_frame {c : Card} {k : Str} {v : Json} {c' : Card}
    (h : localize_keywords c k v = .ok c') : ∃ x, c' = { c with keywords := x } := by
  unfold localize_keywords at h
  repeat' split at h
  all_goals first
    | exact Except.noConfusion h
    | (injection h with h2; exact ⟨_, h2.symm⟩)

/-- One dispatch step preserves the override table and the language tag. -/
theorem applyOverride_frame {c : Card} {k : Str} {v : Json} {c' : Card}
    (h : applyOverride c k v = .ok c') :
    c'.localizations = c.localizations ∧ c'.language = c.language := by
  unfold applyOverride at h
  repeat' split at h
  all_goals first
    | (obtain ⟨x, rfl⟩ := localize_name_frame h; exact ⟨rfl, rfl⟩)
    | (obtain ⟨x, rfl⟩ := localize_titles_frame h; exact ⟨rfl, rfl⟩)
    | (obtain ⟨x, rfl⟩ := localize_addresses_frame h; exact ⟨rfl, rfl⟩)
    | (obtain ⟨x, rfl⟩ := localize_nicknames_frame h; exact ⟨rfl, rfl⟩)
    | (obtain ⟨x, rfl⟩ := localize_personal_info_frame h; exact ⟨rfl, rfl⟩)
    | (obtain ⟨x, rfl⟩ := localize_notes_frame h; exact ⟨rfl, rfl⟩)
    | (obtain ⟨x, rfl⟩ := localize_keywords_frame h; exact ⟨rfl, rfl⟩)
    | (injection h with h2; exact h2 ▸ ⟨rfl, rfl⟩)

/-- The dispatch loop preserves the override table and the language tag. -/
theorem applyOverrides_frame {doc : List (Str × Json)} : ∀ {c c' : Card},
    applyOverrides c doc = .ok c' →
    c'.localizations = c.localizations ∧ c'.language = c.language := by
  induction doc with
  | nil =>
    intro c c' h
    injection h with h2
    exact h2 ▸ ⟨rfl, rfl⟩
  | cons kv rest ih =>
    intro c c' h
    obtain ⟨k, v⟩ := kv
    unfold applyOverrides at h
    cases happ : applyOverride c k v with
    | ok c1 =>
      rw [happ] at h
      simp only [] at h
      obtain ⟨h1, h2⟩ := ih h
      obtain ⟨g1, g2⟩ := applyOverride_frame happ
      exact ⟨h1.trans g1, h2.trans g2⟩
    | error e =>
      rw [happ] at h
      exact Except.noConfusion h

/-- A failing entry aborts the dispatch loop with its error, whatever
entries follow it. -/
theorem applyOverrides_append_error {pre : List (Str × Json)} :
    ∀ {c c₁ : Card} {k : Str} {v : Json} {rest : List (Str × Json)} {e : Str},
    applyOverrides c pre = .ok c₁ → applyOverride c₁ k v = .error e →
    applyOverrides c (pre ++ (k, v) :: rest) = .error e := by
  induction pre with
  | nil =>
    intro c c₁ k v rest e hpre herr
    injection hpre with h2
    subst h2
    simp only [List.nil_append]
    unfold applyOverrides
    rw [herr]
  | cons kv pre' ih =>
    intro c c₁ k v rest e hpre herr
    obtain ⟨k', v'⟩ := kv
    simp only [List.cons_append]
    unfold applyOverrides at hpre ⊢
    cases happ : applyOverride c k' v' with
    | ok c2 =>
      rw [happ] at hpre
      simp only [] at hpre ⊢
      exact ih hpre herr
    | error e' =>
      rw [happ] at hpre
      simp only [] at hpre
      exact Except.noConfusion hpre

/-- The base record threaded through the dispatch loop comes out unchanged,
whether the loop succeeds or fails. -/
theorem resolveLoop_base (doc : List (Str × Json)) :
    ∀ (base scratch : Card), (resolveLoop base scratch doc).1 = base := by
  induction doc with
  | nil => intro base scratch; rfl
  | cons kv rest ih =>
    intro base scratch
    obtain ⟨k, v⟩ := kv
    unfold resolveLoop
    cases applyOverride scratch k v with
    | ok c1 => exact ih base c1
    | error e => rfl

/-- The state-threaded resolver computes the same result as the plain one. -/
theorem resolveLoop_snd (doc : List (Str × Json)) :
    ∀ (base scratch : Card), (resolveLoop base scratch doc).2 = applyOverrides scratch doc := by
  induction doc with
  | nil => intro base scratch; rfl
  | cons kv rest ih =>
    intro base scratch
    obtain ⟨k, v⟩ := kv
    unfold resolveLoop applyOverrides
    cases applyOverride scratch k v with
    | ok c1 => exact ih base c1
    | error e => rfl

/-- Two strings of different lengths are different. -/
theorem ne_of_length {a b : Str} (h : a.length ≠ b.length) : a ≠ b :=
  fun he => h (he ▸ rfl)

/-- A string whose head differs is not a prefix. -/
theorem not_prefix_of_head_ne {a b : Char} (as bs : Str) (h : a ≠ b) :
    (a :: as).isPrefixOf (b :: bs) = false := by
  simp [List.isPrefixOf, h]

/-- A slash-free string is its own longest slash-free prefix. -/
theorem takeWhile_all {s : Str} (h : '/' ∉ s) :
    s.takeWhile (fun c => c != '/') = s := by
  induction s with
  | nil => rfl
  | cons a as ih =>
    have ha : a ≠ '/' := fun he => h (he ▸ List.mem_cons_self a as)
    have has : '/' ∉ as := fun he => h (List.mem_cons_of_mem a he)
    simp [List.takeWhile_cons, ha, ih has]

/-!
The claims, one theorem per claim, with a witness for each theorem that
carries hypotheses and a counterexample where the claim fails as stated.
-/

/-- C5: for all records R and languages L, resolve(R, L) never mutates the
base record: with the borrow structure of the Rust method made explicit as
state threading, the base record after the call equals the base record
before it, whether the call succeeds or fails, and the threaded computation
returns the same value as the plain one. -/
theorem c5_resolve_never_mutates_base (R : Card) (L : Str) :
    (R.get_localized_call L).1 = R ∧ (R.get_localized_call L).2 = R.get_localized L := by
  unfold Card.get_localized_call Card.get_localized
  cases hl : R.localizations with
  | none => exact ⟨rfl, rfl⟩
  | some locs =>
    simp only []
    cases hk : lookupA L locs with
    | none => exact ⟨rfl, rfl⟩
    | some doc => exact ⟨resolveLoop_base doc R R, resolveLoop_snd doc R R⟩

/-- C9: for every record whose name is set and every override document for
L consisting of the entry mapping name/full to a JSON string s, the
resolved card carries name.full = s and every other sub-field of the name,
and every other property of the record, unchanged. -/
theorem c9_leaf_field_merge (c : Card) (L : Str)
    (locs : List (Str × List (Str × Json))) (n : Name) (s : Str)
    (hname : c.name = some n)
    (hloc : c.localizations = some locs)
    (hlook : lookupA L locs = some [(chars "name/full", Json.str s)]) :
    c.get_localized L = .ok { c with name := some { n with full := some s } } := by
  unfold Card.get_localized
  conv_lhs => rw [hloc]
  simp only []
  conv_lhs => rw [hlook]
  simp only []
  unfold applyOverrides applyOverride localize_name
  simp only [hname]
  rfl

/-- Witness for c9_leaf_field_merge: the leaf-merge example record of the
specification resolves to the expected record. -/
theorem c9_leaf_field_merge_witness :
    exCardLeafMerge.get_localized (chars "en") = .ok exCardLeafMergeResult :=
  c9_leaf_field_merge exCardLeafMerge (chars "en") _
    { Name.default with full := some (chars "Okubo Masahito Motohiro") }
    (chars "Okubo Masahito") rfl rfl rfl

/-- C10: path parsing in the titles patcher removes every occurrence of the
entry-key substring instead of consuming one segment: for every card whose
titles map contains an entry under the key name, resolving the single
override entry titles/name/name with a JSON string value returns Ok and
leaves the card unchanged, the patch silently dropped. -/
theorem c10_titles_key_occurrence_removed (c : Card) (L : Str)
    (locs : List (Str × List (Str × Json)))
    (m : List (Str × Title)) (t : Title) (s : Str)
    (htitles : c.titles = some m)
    (hmem : lookupA (chars "name") m = some t)
    (hloc : c.localizations = some locs)
    (hlook : lookupA L locs = some [(chars "titles/name/name", Json.str s)]) :
    c.get_localized L = .ok c := by
  unfold Card.get_localized
  rw [hloc]
  simp only []
  rw [hlook]
  simp only []
  unfold applyOverrides applyOverride
  rw [show strStartsWith (chars "titles/name/name") (chars "name") = false from rfl]
  rw [show strStartsWith (chars "titles/name/name") (chars "titles") = true from rfl]
  simp only [if_false, if_true, Bool.false_eq_true]
  unfold localize_titles
  rw [if_neg (by decide : ¬ (chars "titles/name/name" = chars "titles"))]
  simp only []
  rw [show replaceAll (chars "titles/name/name") (chars "titles/") [] = chars "name/name" from rfl]
  rw [show (splitOn '/' (chars "name/name")).head? = some (chars "name") from rfl]
  simp only []
  rw [show replaceAll (chars "name/name") (chars "name") [] = chars "/" from rfl]
  rw [if_neg (by decide : ¬ (chars "/" = ([] : Str)))]
  rw [show removeFirst (chars "/") = ([] : Str) from rfl]
  rw [htitles]
  simp only [Option.getD]
  rw [hmem]
  simp only []
  rw [if_neg (by decide : ¬ (([] : Str) = chars "name"))]
  rw [if_neg (by decide : ¬ (([] : Str) = chars "kind"))]
  rw [if_neg (by decide : ¬ (([] : Str) = chars "organizationId"))]
  rw [← htitles]
  rfl

/-- Witness for c10_titles_key_occurrence_removed: the record with a title
under the key name and the override titles/name/name resolves to itself. -/
theorem c10_titles_key_occurrence_removed_witness :
    exCardTitlesName.get_localized (chars "en") = .ok exCardTitlesName :=
  c10_titles_key_occurrence_removed exCardTitlesName (chars "en") _ _ exTitleBoss
    (chars "X") rfl rfl rfl rfl

/-- C1, counterexample: the claim that the returned card has an empty
override table fails on the code.  A record holding a document for French
only resolves for English to itself, localizations included, so the
localizations field of the returned copy does not become empty. -/
theorem c1_counterexample_overrides_not_cleared :
    exCardFrenchOnly.get_localized (chars "en") = .ok exCardFrenchOnly ∧
    exCardFrenchOnly.localizations ≠ none :=
  ⟨rfl, fun h => Option.noConfusion h⟩

/-- C1, amended: get_localized never clears the override table and never
stamps the requested language: whenever it returns Ok, the returned card
carries the localizations and language of the base record unchanged, and
when the record has no document for the language the returned card is the
base record itself. -/
theorem c1_overrides_kept_language_unchanged (c : Card) (L : Str) (c' : Card)
    (h : c.get_localized L = .ok c') :
    c'.localizations = c.localizations ∧ c'.language = c.language ∧
    (c.localizations = none → c' = c) ∧
    (∀ locs, c.localizations = some locs → lookupA L locs = none → c' = c) := by
  unfold Card.get_localized at h
  cases hl : c.localizations with
  | none =>
    rw [hl] at h
    simp only [] at h
    injection h with h2
    subst h2
    exact ⟨hl, rfl, fun _ => rfl, fun _ _ _ => rfl⟩
  | some locs0 =>
    rw [hl] at h
    simp only [] at h
    cases hk : lookupA L locs0 with
    | none =>
      rw [hk] at h
      simp only [] at h
      injection h with h2
      subst h2
      exact ⟨hl, rfl, fun _ => rfl, fun _ _ _ => rfl⟩
    | some doc =>
      rw [hk] at h
      simp only [] at h
      obtain ⟨f1, f2⟩ := applyOverrides_frame h
      refine ⟨f1.trans hl, f2, ?_, ?_⟩
      · intro hnone
        exact Option.noConfusion hnone
      · intro locs h1 h2
        injection h1 with h1
        subst h1
        rw [hk] at h2
        exact Option.noConfusion h2

/-- Witness for c1_overrides_kept_language_unchanged: applied to the
leaf-merge example, whose resolution succeeds. -/
theorem c1_overrides_kept_language_unchanged_witness :
    exCardLeafMergeResult.localizations = exCardLeafMerge.localizations ∧
    exCardLeafMergeResult.language = exCardLeafMerge.language :=
  ⟨(c1_overrides_kept_language_unchanged exCardLeafMerge (chars "en")
      exCardLeafMergeResult rfl).1,
   (c1_overrides_kept_language_unchanged exCardLeafMerge (chars "en")
      exCardLeafMergeResult rfl).2.1⟩

/-- C2, code-bug evidence: the whole-property media override of the media
localization test (tests/test_localizations.rs) is silently ignored by
get_localized, which dispatches only the seven prefixes name, titles,
addresses, nicknames, personalInfo, notes and keywords: the record resolves
to itself, its media uri untouched, while the test asserts the shortened
uri CID: after resolution. -/
theorem c2_media_entry_silently_ignored :
    exCardMedia.get_localized (chars "en") = .ok exCardMedia ∧
    exMediaRes45.uri ≠ chars "CID:" :=
  ⟨rfl, by decide⟩

/-- C7, counterexample: a whole-property name override whose value does not
deserialize as a Name does not make resolve fail: it succeeds and resets
the name property to unset, because the patcher converts the parse failure
into an Option with ok(). -/
theorem c7_counterexample_whole_name_mismatch_succeeds :
    exCardBadName.get_localized (chars "en") = .ok { exCardBadName with name := none } ∧
    exCardBadName.name ≠ none :=
  ⟨rfl, fun h => Option.noConfusion h⟩

/-- C7, amended: an override value that cannot be interpreted at its target
is an invalid-value error only for strictly validated required fields, such
as the name field of a title entry; a whole-property override with an
uninterpretable value instead succeeds and resets the property to unset. -/
theorem c7_mismatch_error_only_for_required_fields :
    (∀ (c : Card) (L : Str) (locs : List (Str × List (Str × Json)))
       (m : List (Str × Title)) (t : Title) (v : Json),
       c.localizations = some locs →
       lookupA L locs = some [(chars "titles/t1/name", v)] →
       c.titles = some m → lookupA (chars "t1") m = some t →
       fromValueString v = none →
       c.get_localized L = .error (chars "Invalid value")) ∧
    (∀ (c : Card) (L : Str) (locs : List (Str × List (Str × Json))) (v : Json),
       c.localizations = some locs →
       lookupA L locs = some [(chars "name", v)] →
       fromValueName v = none →
       c.get_localized L = .ok { c with name := none }) := by
  constructor
  · intro c L locs m t v hloc hlook htitles hmem hv
    unfold Card.get_localized
    conv_lhs => rw [hloc]
    simp only []
    conv_lhs => rw [hlook]
    simp only []
    unfold applyOverrides applyOverride
    rw [show strStartsWith (chars "titles/t1/name") (chars "name") = false from rfl]
    rw [show strStartsWith (chars "titles/t1/name") (chars "titles") = true from rfl]
    simp only [if_false, if_true, Bool.false_eq_true]
    unfold localize_titles
    rw [if_neg (by decide : ¬ (chars "titles/t1/name" = chars "titles"))]
    simp only []
    rw [show replaceAll (chars "titles/t1/name") (chars "titles/") [] = chars "t1/name" from rfl]
    rw [show (splitOn '/' (chars "t1/name")).head? = some (chars "t1") from rfl]
    simp only []
    rw [show replaceAll (chars "t1/name") (chars "t1") [] = chars "/name" from rfl]
    rw [if_neg (by decide : ¬ (chars "/name" = ([] : Str)))]
    rw [show removeFirst (chars "/name") = chars "name" from rfl]
    rw [htitles]
    simp only [Option.getD]
    rw [hmem]
    simp only []
    rw [hv]
    rfl
  · intro c L locs v hloc hlook hv
    unfold Card.get_localized
    conv_lhs => rw [hloc]
    simp only []
    conv_lhs => rw [hlook]
    simp only []
    unfold applyOverrides applyOverride localize_name
    rw [hv]
    rfl

/-- Witness for c7_mismatch_error_only_for_required_fields: the title
sub-field override with a numeric value fails with the invalid-value
error, and the whole-name override with a numeric value succeeds with the
name unset. -/
theorem c7_mismatch_error_only_for_required_fields_witness :
    exCardTitlesBadValue.get_localized (chars "en") = .error (chars "Invalid value") ∧
    exCardBadName.get_localized (chars "en") = .ok { exCardBadName with name := none } :=
  ⟨c7_mismatch_error_only_for_required_fields.1 exCardTitlesBadValue (chars "en")
      _ _ exTitleBoss (Json.num 7) rfl rfl rfl rfl rfl,
   c7_mismatch_error_only_for_required_fields.2 exCardBadName (chars "en")
      _ (Json.num 5) rfl rfl rfl⟩

/-- C8, counterexample: the claim fails as stated when the absent entry key
ends in the letters titles: resolving titles/mytitles/field with a valid
Title value does not fail with an entry-key-not-found error, because
stripping every occurrence of the substring titles/ turns the remainder
into the single segment myfield, under which the patcher happily inserts a
new entry. -/
theorem c8_counterexample_boundary_key :
    exCardTitlesBoundary.get_localized (chars "en") =
      .ok { exCardTitlesBoundary with
            titles := some [(chars "t1", exTitleBoss), (chars "myfield", exTitleT)] } :=
  rfl

/-- C8, amended: for a sub-field override path of the titles property whose
entry key is absent from the titles map, resolve fails with the error
naming the key, provided the path parses cleanly: the key is non-empty and
slash-free, stripping the property prefix removes exactly the leading
titles/ (hstrip), and removing the occurrences of the key from the
remainder leaves a non-empty string (hkey2, hrem), which always holds for
a slash-free key since the separating slash survives. -/
theorem c8_strict_entry_key_not_found (c : Card) (L : Str)
    (locs : List (Str × List (Str × Json)))
    (k field key2rem : Str) (v : Json)
    (hloc : c.localizations = some locs)
    (hlook : lookupA L locs = some [(chars "titles/" ++ k ++ '/' :: field, v)])
    (hknos : '/' ∉ k)
    (hstrip : replaceAll (chars "titles/" ++ k ++ '/' :: field) (chars "titles/") [] =
      k ++ '/' :: field)
    (hkey2 : replaceAll (k ++ '/' :: field) k [] = key2rem)
    (hrem : key2rem ≠ [])
    (habsent : lookupA k (c.titles.getD []) = none) :
    c.get_localized L = .error (chars "titles key '" ++ k ++ chars "' not found") := by
  unfold Card.get_localized
  conv_lhs => rw [hloc]
  simp only []
  conv_lhs => rw [hlook]
  simp only []
  unfold applyOverrides applyOverride
  rw [show strStartsWith (chars "titles/" ++ k ++ '/' :: field) (chars "name") = false from
    not_prefix_of_head_ne (chars "ame") (chars "itles/" ++ k ++ '/' :: field) (by decide)]
  rw [show strStartsWith (chars "titles/" ++ k ++ '/' :: field) (chars "titles") = true from
    isPrefixOf_append (chars "titles") ('/' :: (k ++ '/' :: field))]
  simp only [if_false, if_true, Bool.false_eq_true]
  unfold localize_titles
  rw [if_neg (ne_of_length (by
    simp only [List.length_append, List.length_cons]
    rw [show (chars "titles/").length = 7 from rfl, show (chars "titles").length = 6 from rfl]
    omega))]
  simp only []
  rw [hstrip]
  rw [splitOn_head]
  rw [takeWhile_append_sep field hknos]
  simp only []
  rw [hkey2]
  rw [if_neg hrem]
  rw [habsent]

/-- Witness for c8_strict_entry_key_not_found: the record whose titles map
lacks the key zz fails with the error naming zz. -/
theorem c8_strict_entry_key_not_found_witness :
    exCardTitlesMissing.get_localized (chars "en") =
      .error (chars "titles key '" ++ chars "zz" ++ chars "' not found") :=
  c8_strict_entry_key_not_found exCardTitlesMissing (chars "en") _
    (chars "zz") (chars "name") (chars "/name") (Json.str (chars "X"))
    rfl rfl (by decide) rfl rfl (by decide) rfl

/-- C6: a patcher error for any entry aborts the whole resolve call with
that error: whenever the document for the language splits as a prefix the
loop survives followed by an entry on which the dispatched patcher fails,
get_localized returns exactly that error, and the base record threaded
through the explicit-state variant is unchanged. -/
theorem c6_patcher_error_aborts_resolution (c : Card) (L : Str)
    (locs : List (Str × List (Str × Json)))
    (pre : List (Str × Json)) (k : Str) (v : Json) (rest : List (Str × Json))
    (c₁ : Card) (e : Str)
    (hloc : c.localizations = some locs)
    (hlook : lookupA L locs = some (pre ++ (k, v) :: rest))
    (hpre : applyOverrides c pre = .ok c₁)
    (herr : applyOverride c₁ k v = .error e) :
    c.get_localized L = .error e ∧ (c.get_localized_call L).1 = c := by
  constructor
  · unfold Card.get_localized
    conv_lhs => rw [hloc]
    simp only []
    conv_lhs => rw [hlook]
    simp only []
    exact applyOverrides_append_error hpre herr
  · unfold Card.get_localized_call
    conv_lhs => rw [hloc]
    simp only []
    conv_lhs => rw [hlook]
    simp only []
    exact resolveLoop_base _ c c

/-- Witness for c6_patcher_error_aborts_resolution: the abort example, with
a good first entry, a failing second entry and a further entry, resolves to
the error of the second entry with its base record unchanged. -/
theorem c6_patcher_error_aborts_resolution_witness :
    exCardAbort.get_localized (chars "en") =
      .error (chars "titles key '" ++ chars "zz" ++ chars "' not found") ∧
    (exCardAbort.get_localized_call (chars "en")).1 = exCardAbort :=
  c6_patcher_error_aborts_resolution exCardAbort (chars "en") _
    [(chars "name/full", Json.str (chars "B1"))]
    (chars "titles/zz/name") (Json.str (chars "X"))
    [(chars "keywords", Json.obj [(chars "k", Json.bool true)])]
    exCardAbortMid _ rfl rfl rfl rfl

/-- C3, counterexample: the claim fails as stated when the entry key is the
single letter c, a substring of the word components: resolving
addresses/c/components/6 against a one-component list returns Ok with the
addresses untouched, a one-element list instead of the claimed
seven-element list, because removing every occurrence of the key destroys
the word components in the remainder. -/
theorem c3_counterexample_entry_key_collision :
    exCardAutoExtendCex.get_localized (chars "en") = .ok exCardAutoExtendCex ∧
    exAddressK26.components = some [exRegionComponent] :=
  ⟨rfl, rfl⟩

/-- C3, amended: for an override path addresses/k/components/i with a
numeric index i at least the current length of the component list, the
patcher appends placeholder components of kind apartment and value DEFAULT
until the list has i plus one elements and then writes the override at
index i, provided the path parses cleanly: the entry key and the index are
slash-free, prefix stripping removes exactly the leading addresses/
(hstrip), and removing the occurrences of the entry key from the remainder
leaves exactly the components suffix (hkey2, hcomp), which holds for
ordinary keys such as k26 that collide with no other part of the path. -/
theorem c3_components_auto_extend (c : Card) (L : Str)
    (locs : List (Str × List (Str × Json)))
    (k iStr : Str) (i : Nat) (v : Json) (comp : AddressComponent)
    (m : List (Str × Address)) (addr : Address) (cs : List AddressComponent)
    (hloc : c.localizations = some locs)
    (hlook : lookupA L locs =
      some [(chars "addresses/" ++ k ++ '/' :: (chars "components/" ++ iStr), v)])
    (hm : c.addresses = some m)
    (haddr : lookupA k m = some addr)
    (hcs : addr.components = some cs)
    (hknos : '/' ∉ k)
    (hinos : '/' ∉ iStr)
    (hinil : iStr ≠ [])
    (hstrip : replaceAll (chars "addresses/" ++ k ++ '/' :: (chars "components/" ++ iStr))
      (chars "addresses/") [] = k ++ '/' :: (chars "components/" ++ iStr))
    (hkey2 : replaceAll (k ++ '/' :: (chars "components/" ++ iStr)) k [] =
      '/' :: (chars "components/" ++ iStr))
    (hcomp : replaceAll (chars "components/" ++ iStr) (chars "components/") [] = iStr)
    (hparse : parseNat? iStr = some i)
    (hlen : cs.length ≤ i)
    (hv : fromValueAddressComponent v = some comp) :
    c.get_localized L = .ok { c with addresses := some (insertA k
      { addr with components := some ((cs ++
        List.replicate (i + 1 - cs.length) (AddressComponent.new .Apartment (chars "DEFAULT"))).set i comp) }
      m) } := by
  unfold Card.get_localized
  conv_lhs => rw [hloc]
  simp only []
  conv_lhs => rw [hlook]
  simp only []
  unfold applyOverrides applyOverride
  rw [show strStartsWith (chars "addresses/" ++ k ++ '/' :: (chars "components/" ++ iStr))
      (chars "name") = false from
    not_prefix_of_head_ne (chars "ame")
      (chars "ddresses/" ++ k ++ '/' :: (chars "components/" ++ iStr)) (by decide)]
  rw [show strStartsWith (chars "addresses/" ++ k ++ '/' :: (chars "components/" ++ iStr))
      (chars "titles") = false from
    not_prefix_of_head_ne (chars "itles")
      (chars "ddresses/" ++ k ++ '/' :: (chars "components/" ++ iStr)) (by decide)]
  rw [show strStartsWith (chars "addresses/" ++ k ++ '/' :: (chars "components/" ++ iStr))
      (chars "addresses") = true from
    isPrefixOf_append (chars "addresses") ('/' :: (k ++ '/' :: (chars "components/" ++ iStr)))]
  simp only [if_false, if_true, Bool.false_eq_true]
  unfold localize_addresses
  rw [if_neg (ne_of_length (by
    simp only [List.length_append, List.length_cons]
    rw [show (chars "addresses/").length = 10 from rfl,
        show (chars "addresses").length = 9 from rfl,
        show (chars "components/").length = 11 from rfl]
    omega))]
  simp only []
  rw [hstrip]
  rw [hm]
  simp only [Option.getD]
  rw [splitOn_head]
  rw [takeWhile_append_sep (chars "components/" ++ iStr) hknos]
  simp only []
  rw [hkey2]
  rw [show removeFirst ('/' :: (chars "components/" ++ iStr)) = chars "components/" ++ iStr from rfl]
  rw [haddr]
  simp only []
  rw [show strStartsWith (chars "components/" ++ iStr) (chars "components") = true from
    isPrefixOf_append (chars "components") ('/' :: iStr)]
  simp only [if_false, if_true, Bool.false_eq_true]
  unfold localize_addresses_components
  rw [if_neg (ne_of_length (by
    simp only [List.length_append]
    rw [show (chars "components/").length = 11 from rfl,
        show (chars "components").length = 10 from rfl]
    omega))]
  simp only []
  rw [hcs]
  simp only [Option.getD]
  rw [hcomp]
  rw [splitOn_head]
  rw [takeWhile_all hinos]
  simp only []
  rw [replaceAll_self iStr hinil]
  rw [hparse]
  simp only []
  unfold localize_addresses_component_set
  rw [hv]
  rfl

/-- Witness for c3_components_auto_extend: the spec example, a one-element
component list under the key k26 with an override at index 6, resolves to
the seven-element list with placeholders at indices one to five. -/
theorem c3_components_auto_extend_witness :
    exCardAutoExtend.get_localized (chars "en") = .ok exCardAutoExtendResult :=
  c3_components_auto_extend exCardAutoExtend (chars "en") _
    (chars "k26") (chars "6") 6 exPostcodeJson exPostcodeComponent
    [(chars "k26", exAddressK26)] exAddressK26 [exRegionComponent]
    rfl rfl rfl rfl rfl (by decide) (by decide) (by decide)
    rfl rfl rfl rfl (by decide) rfl

/-- C4: for every record whose name components list has length n and every
override path name/components/i/... with a numeric index i at least n, the
name patcher applies the strict index policy: resolve fails with the
out-of-bounds error (and, the call failing, no extended record is ever
returned).  The hypotheses hstrip, hcomp and hseg describe the parsing of
the path; the error is reached for every suffix of the path after the
index. -/
theorem c4_name_strict_index (c : Card) (L : Str)
    (locs : List (Str × List (Str × Json)))
    (nm : Name) (cs : List NameComponent)
    (tail tail2 tail3 iStr : Str) (i : Nat) (v : Json)
    (hname : c.name = some nm)
    (hcs : nm.components = some cs)
    (hloc : c.localizations = some locs)
    (hlook : lookupA L locs = some [(chars "name/components/" ++ tail, v)])
    (hstrip : replaceAll (chars "name/components/" ++ tail) (chars "name/") [] =
      chars "components/" ++ tail2)
    (hcomp : replaceAll (chars "components/" ++ tail2) (chars "components/") [] = tail3)
    (hseg : (splitOn '/' tail3).head? = some iStr)
    (hparse : parseNat? iStr = some i)
    (hlen : cs.length ≤ i) :
    c.get_localized L = .error (chars "Index out of bounds") := by
  unfold Card.get_localized
  conv_lhs => rw [hloc]
  simp only []
  conv_lhs => rw [hlook]
  simp only []
  unfold applyOverrides applyOverride localize_name
  simp only [hname]
  rw [hstrip]
  simp only [Option.getD, hcs]
  rw [hcomp]
  rw [hseg]
  simp only []
  rw [hparse]
  simp only []
  rw [dif_pos hlen]
  rfl

/-- Witness for c4_name_strict_index: the strict-index example of the spec,
a one-component name with the override name/components/1/value, fails with
the out-of-bounds error. -/
theorem c4_name_strict_index_witness :
    exCardStrictIndex.get_localized (chars "en") = .error (chars "Index out of bounds") :=
  c4_name_strict_index exCardStrictIndex (chars "en") _
    { Name.default with components := some [NameComponent.new .Given (chars "A")] }
    [NameComponent.new .Given (chars "A")]
    (chars "1/value") (chars "1/value") (chars "1/value") (chars "1") 1
    (Json.str (chars "X"))
    rfl rfl rfl rfl rfl rfl rfl rfl (by decide)

end JSContact
